import Mathlib

/-!
Shallow embedding of the `nxrefine` reduction pipeline
(`src/nxrefine/nxreduce.py` and `src/nxrefine/nxsymmetry.py`).

Machine floats are modelled by `ℚ`; optional Python values (`None`) by
`Option`; the hierarchical wrapper file and task database are modelled by
the parts the reducer's control flow actually touches (the set of process
records present in the entry and the per-task database status).
-/

namespace NXRefine

/-! ## NXBlob (`nxreduce.py`, class `NXBlob`)

`NXBlob.__init__` stores `pixel_tolerance**2` in the `pixel_tolerance`
attribute; `intensity = np * average`; `peaks = [self]`; `combined = False`.
-/

structure NXBlob where
  np : ℚ
  average : ℚ
  intensity : ℚ
  x : ℚ
  y : ℚ
  z : ℚ
  sigx : ℚ
  sigy : ℚ
  covxy : ℚ
  threshold : ℚ
  peaks : List NXBlob
  pixel_tolerance : ℚ      -- holds the square of the constructor argument
  frame_tolerance : ℚ
  combined : Bool
deriving Repr

/-- `NXBlob.__init__(np, average, x, y, z, sigx, sigy, covxy, threshold,
pixel_tolerance, frame_tolerance)`. -/
def NXBlob.mk' (np average x y z sigx sigy covxy threshold
    pixel_tolerance frame_tolerance : ℚ) : NXBlob :=
  let b : NXBlob :=
    { np := np
      average := average
      intensity := np * average
      x := x
      y := y
      z := z
      sigx := sigx
      sigy := sigy
      covxy := covxy
      threshold := threshold
      peaks := []
      pixel_tolerance := pixel_tolerance ^ 2
      frame_tolerance := frame_tolerance
      combined := false }
  { b with peaks := [b] }

/-- `NXBlob.__lt__`: ordering by `z`. -/
def NXBlob.blt (self other : NXBlob) : Bool :=
  self.z < other.z

/-- `NXBlob.__eq__`: `|Δz| ≤ frame_tolerance` and then
`Δx² + Δy² ≤ pixel_tolerance` (the stored square). -/
def NXBlob.beq (self other : NXBlob) : Bool :=
  if |self.z - other.z| ≤ self.frame_tolerance then
    if (self.x - other.x) ^ 2 + (self.y - other.y) ^ 2 ≤ self.pixel_tolerance
    then true
    else false
  else false

/-- `NXBlob.__ne__`: `|Δz| > frame_tolerance` and then
`Δx² + Δy² > pixel_tolerance`. -/
def NXBlob.bne (self other : NXBlob) : Bool :=
  if |self.z - other.z| > self.frame_tolerance then
    if (self.x - other.x) ^ 2 + (self.y - other.y) ^ 2 > self.pixel_tolerance
    then true
    else false
  else false

/-- `NXBlob.combine(other)`: extend `self.peaks` with `other.peaks` and set
`self.combined = True` (functionally: return the updated `self`). -/
def NXBlob.combine (self other : NXBlob) : NXBlob :=
  { self with peaks := self.peaks ++ other.peaks, combined := true }

/-! ## Symmetry engine (`nxsymmetry.py`, class `NXSymmetry`)

3D volumes are modelled as total functions `ℕ → ℕ → ℕ → ℚ` together with a
shape; `np.flip`, `np.rot90` and `np.transpose` become index remappings
(`np.flip(a, 0)[i,j,k] = a[n₀-1-i,j,k]`, etc.), and the in-place `+=`
accumulation of each Laue function becomes sequential `let` bindings.
`np.nan_to_num` is the identity on exact rationals. -/

/-- A 3D volume of rationals. -/
def Arr3 : Type := ℕ → ℕ → ℕ → ℚ

instance : Add Arr3 := ⟨fun A B i j k => A i j k + B i j k⟩

/-- The shape `(n₀, n₁, n₂)` of a 3D volume. -/
structure Shape3 where
  n₀ : ℕ
  n₁ : ℕ
  n₂ : ℕ

/-- `np.flip(a)` (all axes). -/
def flipAll (s : Shape3) (A : Arr3) : Arr3 :=
  fun i j k => A (s.n₀ - 1 - i) (s.n₁ - 1 - j) (s.n₂ - 1 - k)

/-- `np.flip(a, 0)`. -/
def flip0 (s : Shape3) (A : Arr3) : Arr3 :=
  fun i j k => A (s.n₀ - 1 - i) j k

/-- `np.flip(a, 1)`. -/
def flip1 (s : Shape3) (A : Arr3) : Arr3 :=
  fun i j k => A i (s.n₁ - 1 - j) k

/-- `np.flip(a, 2)`. -/
def flip2 (s : Shape3) (A : Arr3) : Arr3 :=
  fun i j k => A i j (s.n₂ - 1 - k)

/-- `np.rot90(a, 1, (1,2))`. -/
def rot90one12 (s : Shape3) (A : Arr3) : Arr3 :=
  fun i j k => A i k (s.n₂ - 1 - j)

/-- `np.rot90(a, 2, (1,2))`. -/
def rot180of12 (s : Shape3) (A : Arr3) : Arr3 :=
  fun i j k => A i (s.n₁ - 1 - j) (s.n₂ - 1 - k)

/-- `np.rot90(a, 2, (0,2))`. -/
def rot180of02 (s : Shape3) (A : Arr3) : Arr3 :=
  fun i j k => A (s.n₀ - 1 - i) j (s.n₂ - 1 - k)

/-- `np.rot90(a, 2, (0,1))`. -/
def rot180of01 (s : Shape3) (A : Arr3) : Arr3 :=
  fun i j k => A (s.n₀ - 1 - i) (s.n₁ - 1 - j) k

/-- `np.transpose(a, axes=(1,2,0))`. -/
def transpose120 (A : Arr3) : Arr3 :=
  fun i j k => A k i j

/-- `np.transpose(a, axes=(2,0,1))`. -/
def transpose201 (A : Arr3) : Arr3 :=
  fun i j k => A j k i

/-- `np.transpose(a, axes=(0,2,1))`. -/
def transpose021 (A : Arr3) : Arr3 :=
  fun i j k => A i k j

/-- `NXSymmetry.triclinic` (Laue group `-1`). -/
def triclinic (s : Shape3) (data : Arr3) : Arr3 :=
  data + flipAll s data

/-- `NXSymmetry.monoclinic` (Laue group `2/m`). -/
def monoclinic (s : Shape3) (data : Arr3) : Arr3 :=
  let o₁ := data + rot180of02 s data
  o₁ + flip0 s o₁

/-- `NXSymmetry.orthorhombic` (Laue group `mmm`). -/
def orthorhombic (s : Shape3) (data : Arr3) : Arr3 :=
  let o₁ := data + flip0 s data
  let o₂ := o₁ + flip1 s o₁
  o₂ + flip2 s o₂

/-- `NXSymmetry.tetragonal1` (Laue group `4/m`). -/
def tetragonal1 (s : Shape3) (data : Arr3) : Arr3 :=
  let o₁ := data + rot90one12 s data
  let o₂ := o₁ + rot180of12 s o₁
  o₂ + flip0 s o₂

/-- `NXSymmetry.tetragonal2` (Laue group `4/mmm`). -/
def tetragonal2 (s : Shape3) (data : Arr3) : Arr3 :=
  let o₁ := data + rot90one12 s data
  let o₂ := o₁ + rot180of12 s o₁
  let o₃ := o₂ + rot180of01 s o₂
  o₃ + flip0 s o₃

/-- `NXSymmetry.hexagonal` (Laue groups `6/m`, `6/mmm`). -/
def hexagonal (s : Shape3) (data : Arr3) : Arr3 :=
  let o₁ := data + rot180of12 s data
  o₁ + flip0 s o₁

/-- `NXSymmetry.cubic` (Laue groups `m-3`, `m-3m`). -/
def cubic (s : Shape3) (data : Arr3) : Arr3 :=
  let o₁ := data + (transpose120 data + transpose201 data)
  let o₂ := o₁ + transpose021 o₁
  let o₃ := o₂ + flip0 s o₂
  let o₄ := o₃ + flip1 s o₃
  o₄ + flip2 s o₄

/-- The `laue_functions` dispatch table of `NXSymmetry.__init__`, with the
fallback to `triclinic` for unknown groups. -/
def laueFunction (s : Shape3) (g : String) : Arr3 → Arr3 :=
  if g = "-1" then triclinic s
  else if g = "2/m" then monoclinic s
  else if g = "mmm" then orthorhombic s
  else if g = "4/m" then tetragonal1 s
  else if g = "4/mmm" then tetragonal2 s
  else if g = "-3" then triclinic s
  else if g = "-3m" then triclinic s
  else if g = "6/m" then hexagonal s
  else if g = "6/mmm" then hexagonal s
  else if g = "m-3" then cubic s
  else if g = "m-3m" then cubic s
  else triclinic s

/-- Default weights of `NXSymmetry.__init__` when no weights are supplied:
zero everywhere except `1` where the signal is strictly positive. -/
def defaultWeights (signal : Arr3) : Arr3 :=
  fun i j k => if 0 < signal i j k then 1 else 0

/-- The symmetrized signal `self._function(self._signal)`. -/
def symmSignal (s : Shape3) (g : String) (signal : Arr3) : Arr3 :=
  laueFunction s g signal

/-- The symmetrized weights `self._function(self._wts)`. -/
def symmWeights (s : Shape3) (g : String) (signal : Arr3)
    (wts : Option Arr3) : Arr3 :=
  laueFunction s g (wts.getD (defaultWeights signal))

/-- `NXSymmetry.symmetrize`: `np.where(weights > 0, signal/weights, 0.0)`
after applying the Laue function to both signal and weights. -/
def symmetrize (s : Shape3) (g : String) (signal : Arr3)
    (wts : Option Arr3) : Arr3 :=
  fun i j k =>
    if 0 < symmWeights s g signal wts i j k then
      symmSignal s g signal i j k / symmWeights s g signal wts i j k
    else 0

/-- A volume whose only (possibly) non-zero voxel is the value `c` at
`(0,0,0)`. -/
def singleVoxel (c : ℚ) : Arr3 :=
  fun i j k => if i = 0 ∧ j = 0 ∧ k = 0 then c else 0

/-! ## Reducer orchestration (`nxreduce.py`, classes `NXReduce` and
`NXMultiReduce`)

The task database is modelled by a status per task name, the wrapper file
by the list of process-record names present in the entry.  Detector data
is abstracted frame-wise: `frameMax f` is the masked maximum of frame `f`
(after the always-firing-pixel augmentation) and `blobsAt t f` the list of
valid blobs `peaksearch` produces on frame `f` at threshold `t`; chunked
reads `data[i:i+chunk_size]` are recorded as `(i, chunk_size)` pairs. -/

/-- Database status of a `(task, entry)` pair. -/
inductive Status where
  | queued
  | inProgress
  | done
  | failed
deriving DecidableEq, Repr

/-- Reducer-visible state: per-task database status and the process
records present in the wrapper entry. -/
structure TaskState where
  dbStatus : String → Status
  records : List String

/-- Set the database status of one task. -/
def setStatus (t : String) (st : Status) (s : TaskState) : TaskState :=
  { s with dbStatus := fun u => if u = t then st else s.dbStatus u }

/-- `NXReduce.record_start`: `db.start_task` → `IN_PROGRESS`. -/
def record_start (t : String) (s : TaskState) : TaskState :=
  setStatus t Status.inProgress s

/-- `NXReduce.record_end`: `db.end_task` → `DONE`. -/
def record_end (t : String) (s : TaskState) : TaskState :=
  setStatus t Status.done s

/-- `NXReduce.record_fail`: `db.fail_task` → `FAILED`. -/
def record_fail (t : String) (s : TaskState) : TaskState :=
  setStatus t Status.failed s

/-- `NXReduce.record`: delete any existing process record of that name and
write a fresh one into the entry. -/
def recordProcess (t : String) (s : TaskState) : TaskState :=
  { s with records := t :: s.records.filter (fun u => u ≠ t) }

/-- Python `range(start, stop, step)` for a positive step (empty for
`step = 0`, where Python raises). -/
def rangeStep (start stop step : ℕ) : List ℕ :=
  if step = 0 then []
  else (List.range ((stop - start + step - 1) / step)).map
    (fun t => start + t * step)

/-- The frames `[i, stop)` delivered by a chunk read `data[i:i+c]` (numpy
slices clamp at the end of the data). -/
def chunkFrames (i stop : ℕ) : List ℕ :=
  (List.range (stop - i)).map (i + ·)

/-- Frame-wise abstraction of the raw detector volume. -/
structure FrameData where
  shape0 : ℕ               -- `self.shape[0]`
  chunks0 : ℕ              -- `self.field.chunks[0]`
  frameMax : ℕ → ℚ         -- masked maximum of one frame

/-- Result of a chunked computation: the value returned (`none` on
cancellation) and the chunk reads performed. -/
structure MaxRun where
  result : Option ℚ
  reads : List (ℕ × ℕ)

/-- The frame loop of `NXReduce.find_maximum`: at each chunk start `i` the
`stopped` flag is polled first (`return None` when set); otherwise
`data[i:i+chunk_size]` is read and the running maximum updated. -/
def findMaximumGo (stopped : ℕ → Bool) (frameMax : ℕ → ℚ)
    (shape0 chunk : ℕ) : List ℕ → ℚ → List (ℕ × ℕ) → MaxRun
  | [], m, acc => ⟨some m, acc.reverse⟩
  | i :: rest, m, acc =>
    if stopped i then ⟨none, acc.reverse⟩
    else
      let m' := (chunkFrames i (min (i + chunk) shape0)).foldl
        (fun v f => max v (frameMax f)) m
      findMaximumGo stopped frameMax shape0 chunk rest m' ((i, chunk) :: acc)

/-- `NXReduce.find_maximum`: chunk size is the storage chunk size, or 50
when that is `< 20`; `first`/`last` default to `0`/`shape[0]`; the running
maximum starts at `0.0`. -/
def findMaximum (d : FrameData) (first last : Option ℕ)
    (stopped : ℕ → Bool) : MaxRun :=
  let chunk := if d.chunks0 < 20 then 50 else d.chunks0
  let first := first.getD 0
  let last := last.getD d.shape0
  findMaximumGo stopped d.frameMax d.shape0 chunk
    (rangeStep first last chunk) 0 []

/-- `NXReduce.nxmax` (without the GUI signal emission): guarded by
`not_complete ∧ maxcount` and data existence; `record_start`; in non-GUI
mode `write_maximum`, `record` and `record_end` run unconditionally on the
returned value, including when `find_maximum` returned `None`. -/
def nxmax (gui maxcount dataExists notComplete : Bool) (d : FrameData)
    (first last : Option ℕ) (stopped : ℕ → Bool) (s : TaskState) :
    TaskState :=
  if notComplete && maxcount then
    if !dataExists then s
    else
      let s₁ := record_start "nxmax" s
      let _maximum := (findMaximum d first last stopped).result
      if gui then s₁
      else record_end "nxmax" (recordProcess "nxmax" s₁)
  else s

/-- Frame-wise abstraction of the peak search: `blobsAt t f` is the list
of valid `NXBlob`s found on frame `f` at threshold `t`. -/
structure FindData where
  shape0 : ℕ
  chunks0 : ℕ
  blobsAt : ℚ → ℕ → List NXBlob

/-- Result of `find_peaks`: the peak list (`none` on cancellation or when
no peaks were found) and the chunk reads performed. -/
structure PeaksRun where
  result : Option (List NXBlob)
  reads : List (ℕ × ℕ)

/-- The chunk loop of `NXReduce.find_peaks`: `stopped` is polled at every
chunk start of `range(0, nframes, chunk_size)`; a chunk is read only when
`i + chunk_size > z_min ∧ i < z_max`; within the chunk, frames `i+j` with
`z_min ≤ i+j ≤ z_max` are searched (the `IndexError` at the tail truncates
at `shape[0]`). -/
def findPeaksChunkLoop (stopped : ℕ → Bool) (blobs : ℕ → List NXBlob)
    (shape0 chunk zmin zmax : ℕ) :
    List ℕ → List NXBlob → List (ℕ × ℕ) → Option (List NXBlob) × List (ℕ × ℕ)
  | [], acc, reads => (some acc, reads.reverse)
  | i :: rest, acc, reads =>
    if stopped i then (none, reads.reverse)
    else if zmin < i + chunk ∧ i < zmax then
      let fs := (chunkFrames i (min (i + chunk) shape0)).filter
        (fun f => zmin ≤ f ∧ f ≤ zmax)
      findPeaksChunkLoop stopped blobs shape0 chunk zmin zmax rest
        (acc ++ fs.flatMap blobs) ((i, chunk) :: reads)
    else findPeaksChunkLoop stopped blobs shape0 chunk zmin zmax rest acc reads

instance : Inhabited NXBlob :=
  ⟨NXBlob.mk' 0 0 0 0 0 0 0 0 0 0 0⟩

/-- The index scan
`for idx in range(len(merged)): if peak1 == merged[idx]: break`:
the first matching index, or the LAST index when none matches (Python
leaves the loop variable at its final value). -/
def matchIdx (p₁ : NXBlob) (merged : List NXBlob) : ℕ :=
  let i := merged.findIdx (fun q => p₁.beq q)
  if i < merged.length then i else merged.length - 1

/-- Merging one new blob into the merged list: match against the previous
frame first, then against the reversed merged list restricted to
`p.z ≥ new.z − frame_tolerance`; on a match, `peak1.combine(merged[idx])`
replaces `merged[idx]`; otherwise append. -/
def mergeStep (ft : ℚ) (lastFrame : List NXBlob) (merged : List NXBlob)
    (p₁ : NXBlob) : List NXBlob :=
  match lastFrame.find? (fun p₂ => p₁.beq p₂) with
  | some _ =>
      let idx := matchIdx p₁ merged
      merged.set idx (p₁.combine (merged.getD idx default))
  | none =>
      let revPeaks := merged.reverse.filter (fun p => p.z ≥ p₁.z - ft)
      match revPeaks.find? (fun p₂ => p₁.beq p₂) with
      | some _ =>
          let idx := matchIdx p₁ merged
          merged.set idx (p₁.combine (merged.getD idx default))
      | none => merged ++ [p₁]

/-- The merge loop of `find_peaks` over `z ∈ [z_min, z_max]`, polling a
fresh `stopped` flag per frame (progress was restarted before the loop). -/
def mergeLoop (stopped₂ : ℕ → Bool) (ft : ℚ) (allpeaks : List NXBlob) :
    List ℕ → List NXBlob → List NXBlob → Option (List NXBlob)
  | [], merged, _ => some merged
  | z :: rest, merged, lastFrame =>
    if stopped₂ z then none
    else
      let frame := allpeaks.filter (fun p => p.z = (z : ℚ))
      let merged' :=
        if merged.isEmpty then merged ++ frame
        else frame.foldl (fun m p₁ => mergeStep ft lastFrame m p₁) merged
      mergeLoop stopped₂ ft allpeaks rest merged'
        (if frame.isEmpty then lastFrame else frame)

/-- Python `sorted` on blobs: stable sort by `z` (`NXBlob.__lt__`). -/
def sortByZ (l : List NXBlob) : List NXBlob :=
  l.mergeSort (fun a b => a.z ≤ b.z)

/-- `NXBlob.merge`: replace the moments by intensity-weighted averages
over the collected `peaks`. -/
def NXBlob.mergeMoments (b : NXBlob) : NXBlob :=
  let np := (b.peaks.map (fun p => p.np)).sum
  let intensity := (b.peaks.map (fun p => p.intensity)).sum
  { b with
    x := (b.peaks.map (fun p => p.x * p.intensity)).sum / intensity
    y := (b.peaks.map (fun p => p.y * p.intensity)).sum / intensity
    z := (b.peaks.map (fun p => p.z * p.intensity)).sum / intensity
    sigx := (b.peaks.map (fun p => p.sigx * p.intensity)).sum / intensity
    sigy := (b.peaks.map (fun p => p.sigy * p.intensity)).sum / intensity
    covxy := (b.peaks.map (fun p => p.covxy * p.intensity)).sum / intensity
    np := np
    intensity := intensity
    average := intensity / np }

/-- `NXReduce.find_peaks`: threshold defaults to `maximum / 10` when
unset; `z_min`/`z_max` default to `0`/`shape[0]`; the chunk loop uses the
native chunk size `self.field.chunks[0]` (no 50-frame fallback); an empty
`allpeaks` returns `None`; otherwise sort, merge across frames with
`frame_tolerance = 10`, average moments and sort again. -/
def findPeaks (d : FindData) (threshold₀ : Option ℚ) (maximum : ℚ)
    (first last : Option ℕ) (stopped stopped₂ : ℕ → Bool) : PeaksRun :=
  let threshold := threshold₀.getD (maximum / 10)
  let zmin := first.getD 0
  let zmax := last.getD d.shape0
  let chunk := d.chunks0
  let p₁ := findPeaksChunkLoop stopped (d.blobsAt threshold) d.shape0 chunk
    zmin zmax (rangeStep 0 zmax chunk) [] []
  match p₁ with
  | (none, reads) => ⟨none, reads⟩
  | (some allpeaks, reads) =>
    if allpeaks.isEmpty then ⟨none, reads⟩
    else
      let sorted := sortByZ allpeaks
      let zs := (List.range (zmax + 1 - zmin)).map (zmin + ·)
      match mergeLoop stopped₂ 10 sorted zs [] [] with
      | none => ⟨none, reads⟩
      | some merged =>
          ⟨some (sortByZ ((sortByZ merged).map NXBlob.mergeMoments)), reads⟩

/-- `NXReduce.nxfind` (without GUI signal emission): `record_start`; in
non-GUI mode, a truthy peak list leads to `write_peaks`, `record` and
`record_end`, while `None` (or an empty list) leads to `record_fail`. -/
def nxfind (gui find dataExists notComplete : Bool) (d : FindData)
    (threshold₀ : Option ℚ) (maximum : ℚ) (first last : Option ℕ)
    (stopped stopped₂ : ℕ → Bool) (s : TaskState) : TaskState :=
  if notComplete && find then
    if !dataExists then s
    else
      let s₁ := record_start "nxfind" s
      let peaks := (findPeaks d threshold₀ maximum first last
        stopped stopped₂).result
      if gui then s₁
      else if (peaks.getD []).isEmpty then record_fail "nxfind" s₁
      else record_end "nxfind" (recordProcess "nxfind" s₁)
  else s

/-- `NXMultiReduce.nxcombine`: the task name is `nxmasked_combine` when
masked, else `nxcombine`; `record_start(task)` and, on success,
`record(task)`/`record_end(task)`; on a non-zero `cctw` return code the
source calls `record_fail('nxcombine')` with the hardcoded literal. -/
def nxcombine (mask combine notComplete transformsComplete
    cctwValid : Bool) (returncode : ℤ) (s : TaskState) : TaskState :=
  let task := if mask then "nxmasked_combine" else "nxcombine"
  if notComplete && combine then
    if !transformsComplete then s
    else
      let s₁ := record_start task s
      if cctwValid then
        if returncode = 0 then record_end task (recordProcess task s₁)
        else record_fail "nxcombine" s₁
      else s₁
  else s

/-- The `NXReduce.threshold` property getter: the cached value, else the
wrapper lookups (`entry/nxreduce/threshold`, the `peaks` attribute, then
the parent's pair of lookups), else `maximum / 10` when the maximum is
known; finally any value `≤ 0` (or a failed conversion) becomes `None`. -/
def thresholdProperty (cached rootReduce peaksAttr : Option ℚ)
    (parentPresent : Bool) (parentRootReduce parentPeaksAttr : Option ℚ)
    (maximum : Option ℚ) : Option ℚ :=
  let t : Option ℚ :=
    match cached with
    | some v => some v
    | none =>
      match rootReduce with
      | some v => some v
      | none =>
        match peaksAttr with
        | some v => some v
        | none =>
          if parentPresent then
            match parentRootReduce with
            | some v => some v
            | none => parentPeaksAttr
          else none
  let t : Option ℚ :=
    match t with
    | none => maximum.map (fun m => m / 10)
    | some v => some v
  match t with
  | none => none
  | some v => if v ≤ 0 then none else some v

/-! ## Mask consolidation (`NXReduce.complete_xyz_mask`)

Peaks read from the mask file carry `(x, y, z, H, K, L, pixel_count,
radius)`; masks are peaks of the same shape.  `np.rint` rounds half to
even. -/

/-- A refined reflection / mask entry. -/
structure NXPeak where
  x : ℚ
  y : ℚ
  z : ℚ
  H : ℚ
  K : ℚ
  L : ℚ
  pixel_count : ℚ
  radius : ℚ
deriving DecidableEq, Repr

/-- `np.rint`: round to the nearest integer, halves to the even integer. -/
def rint (q : ℚ) : ℤ :=
  let fl := ⌊q⌋
  if q - fl < 1 / 2 then fl
  else if q - fl > 1 / 2 then fl + 1
  else if Even fl then fl else fl + 1

/-- `[om for om in masks[e] if om.H == p.H and om.K == p.K and om.L == p.L]`. -/
def matching (p : NXPeak) (ms : List NXPeak) : List NXPeak :=
  ms.filter (fun om => om.H = p.H ∧ om.K = p.K ∧ om.L = p.L)

/-- The per-peak accumulation of `complete_xyz_mask`: starting from
`(0, 0)`, over the other entries' mask lists, fold `max` of the matching
radii and `max` of the matching count. -/
def peakRadiusWidth (p : NXPeak) (others : List (List NXPeak)) : ℚ × ℕ :=
  others.foldl (fun rw ms =>
    let oms := matching p ms
    (oms.foldl (fun r om => max r om.radius) rw.1, max rw.2 oms.length)) (0, 0)

/-- The extra masks emitted for one peak: when the accumulated radius is
positive, `radius += 20`, `width = int((width + 2) / 2)` (floor),
`z = int(np.rint(p.z))`, one mask per frame of
`range(z - width, z + width + 1)`. -/
def extrasForPeak (p : NXPeak) (others : List (List NXPeak)) : List NXPeak :=
  let rw := peakRadiusWidth p others
  if 0 < rw.1 then
    let radius := rw.1 + 20
    let width := (rw.2 + 2) / 2
    let z := rint p.z
    (List.range (2 * width + 1)).map (fun t : ℕ =>
      { x := p.x, y := p.y, z := ((z - (width : ℤ) + (t : ℤ) : ℤ) : ℚ),
        H := p.H, K := p.K, L := p.L, pixel_count := p.pixel_count,
        radius := radius })
  else []

/-- The `extra_masks` list of `complete_xyz_mask`: one pass over this
entry's peaks with `pixel_count < 0`, matched against the other entries'
masks (`e is not self.entry_name`). -/
def completeXyzExtras (entries : List String) (entryName : String)
    (peaks masks : String → List NXPeak) : List NXPeak :=
  ((peaks entryName).filter (fun p => p.pixel_count < 0)).flatMap (fun p =>
    extrasForPeak p ((entries.filter (fun e => e ≠ entryName)).map masks))

/-- The maximum radius among the matching masks of all other entries
(`0` when there is none). -/
def maxMatchingRadius (p : NXPeak) (others : List (List NXPeak)) : ℚ :=
  (others.flatMap (matching p)).foldl (fun r om => max r om.radius) 0

/-- The greatest number of matching masks found in any single other entry. -/
def maxMatchingCount (p : NXPeak) (others : List (List NXPeak)) : ℕ :=
  (others.map (fun ms => (matching p ms).length)).foldl max 0

/-- Modelled from the claim's words, for comparison: the width the claim
predicts, `⌈(max_count + 2) / 2⌉`. -/
def claimWidth (c : ℕ) : ℕ :=
  (c + 2 + 1) / 2

/-- C6: `NXBlob.__eq__` on freshly constructed blobs returns `True` iff
`|z₁ − z₂| ≤ frame_tolerance` and `(x₁−x₂)² + (y₁−y₂)² ≤ pixel_tolerance²`,
and `NXBlob.__lt__` compares the `z` values. -/
theorem blob_eq_lt_spec (np₁ a₁ x₁ y₁ z₁ sx₁ sy₁ c₁ t₁ pt ft
    np₂ a₂ x₂ y₂ z₂ sx₂ sy₂ c₂ t₂ pt₂ ft₂ : ℚ) :
    (NXBlob.beq (NXBlob.mk' np₁ a₁ x₁ y₁ z₁ sx₁ sy₁ c₁ t₁ pt ft)
        (NXBlob.mk' np₂ a₂ x₂ y₂ z₂ sx₂ sy₂ c₂ t₂ pt₂ ft₂) = true ↔
      |z₁ - z₂| ≤ ft ∧ (x₁ - x₂) ^ 2 + (y₁ - y₂) ^ 2 ≤ pt ^ 2) ∧
    (NXBlob.blt (NXBlob.mk' np₁ a₁ x₁ y₁ z₁ sx₁ sy₁ c₁ t₁ pt ft)
        (NXBlob.mk' np₂ a₂ x₂ y₂ z₂ sx₂ sy₂ c₂ t₂ pt₂ ft₂) = true ↔
      z₁ < z₂) := by
  constructor
  · simp only [NXBlob.beq, NXBlob.mk']
    split
    · split
      · simp_all
      · simp_all
    · simp_all
  · simp [NXBlob.blt, NXBlob.mk']

/-- C10: when exactly one of the two tolerance conditions holds, both
`__eq__` and `__ne__` return `False`; `__ne__` returns `True` exactly when
both conditions fail. -/
theorem blob_ne_not_negation (np₁ a₁ x₁ y₁ z₁ sx₁ sy₁ c₁ t₁ pt ft
    np₂ a₂ x₂ y₂ z₂ sx₂ sy₂ c₂ t₂ pt₂ ft₂ : ℚ)
    (hxor : (|z₁ - z₂| ≤ ft ∧ ¬((x₁ - x₂) ^ 2 + (y₁ - y₂) ^ 2 ≤ pt ^ 2)) ∨
            (¬(|z₁ - z₂| ≤ ft) ∧ (x₁ - x₂) ^ 2 + (y₁ - y₂) ^ 2 ≤ pt ^ 2)) :
    (NXBlob.beq (NXBlob.mk' np₁ a₁ x₁ y₁ z₁ sx₁ sy₁ c₁ t₁ pt ft)
        (NXBlob.mk' np₂ a₂ x₂ y₂ z₂ sx₂ sy₂ c₂ t₂ pt₂ ft₂) = false) ∧
    (NXBlob.bne (NXBlob.mk' np₁ a₁ x₁ y₁ z₁ sx₁ sy₁ c₁ t₁ pt ft)
        (NXBlob.mk' np₂ a₂ x₂ y₂ z₂ sx₂ sy₂ c₂ t₂ pt₂ ft₂) = false) ∧
    (NXBlob.bne (NXBlob.mk' np₁ a₁ x₁ y₁ z₁ sx₁ sy₁ c₁ t₁ pt ft)
        (NXBlob.mk' np₂ a₂ x₂ y₂ z₂ sx₂ sy₂ c₂ t₂ pt₂ ft₂) = true ↔
      ¬(|z₁ - z₂| ≤ ft) ∧ ¬((x₁ - x₂) ^ 2 + (y₁ - y₂) ^ 2 ≤ pt ^ 2)) := by
  refine ⟨?_, ?_, ?_⟩
  · simp only [NXBlob.beq, NXBlob.mk']
    rcases hxor with ⟨h₁, h₂⟩ | ⟨h₁, h₂⟩ <;> simp_all
  · simp only [NXBlob.bne, NXBlob.mk']
    rcases hxor with ⟨h₁, h₂⟩ | ⟨h₁, h₂⟩ <;> simp_all
  · simp only [NXBlob.bne, NXBlob.mk', gt_iff_lt]
    split
    · split
      · simp_all [not_le]
      · simp_all [not_le]
    · simp_all [not_le]

/-- Witness for `blob_ne_not_negation` at concrete blobs: `Δz = 0 ≤ ft = 10`
but `Δx² + Δy² = 10000 > 50² = 2500`. -/
theorem blob_ne_not_negation_witness :
    (NXBlob.beq (NXBlob.mk' 6 1 0 0 5 0 0 0 100 50 10)
        (NXBlob.mk' 6 1 100 0 5 0 0 0 100 50 10) = false) ∧
    (NXBlob.bne (NXBlob.mk' 6 1 0 0 5 0 0 0 100 50 10)
        (NXBlob.mk' 6 1 100 0 5 0 0 0 100 50 10) = false) := by
  have h := blob_ne_not_negation 6 1 0 0 5 0 0 0 100 50 10
      6 1 100 0 5 0 0 0 100 50 10 (by norm_num)
  exact ⟨h.1, h.2.1⟩

theorem Arr3.add_apply (A B : Arr3) (i j k : ℕ) :
    (A + B) i j k = A i j k + B i j k := rfl

set_option maxHeartbeats 1000000 in
/-- Every Laue function is a sum of index remappings of its input, so it
maps pointwise-nonnegative volumes to pointwise-nonnegative volumes. -/
theorem laueFunction_nonneg (s : Shape3) (g : String) (A : Arr3)
    (h : ∀ i j k, 0 ≤ A i j k) :
    ∀ i j k, 0 ≤ laueFunction s g A i j k := by
  have hfun : ∀ f : Arr3 → Arr3,
      (f = triclinic s ∨ f = monoclinic s ∨ f = orthorhombic s ∨
       f = tetragonal1 s ∨ f = tetragonal2 s ∨ f = hexagonal s ∨
       f = cubic s) → ∀ i j k, 0 ≤ f A i j k := by
    rintro f (rfl | rfl | rfl | rfl | rfl | rfl | rfl) i j k <;>
      simp only [triclinic, monoclinic, orthorhombic, tetragonal1,
        tetragonal2, hexagonal, cubic, Arr3.add_apply, flipAll, flip0,
        flip1, flip2, rot90one12, rot180of12, rot180of02, rot180of01,
        transpose120, transpose201, transpose021] <;>
      repeat first
        | apply add_nonneg
        | exact h _ _ _
  intro i j k
  unfold laueFunction
  split
  · exact hfun _ (Or.inl rfl) i j k
  split
  · exact hfun _ (Or.inr (Or.inl rfl)) i j k
  split
  · exact hfun _ (Or.inr (Or.inr (Or.inl rfl))) i j k
  split
  · exact hfun _ (Or.inr (Or.inr (Or.inr (Or.inl rfl)))) i j k
  split
  · exact hfun _ (Or.inr (Or.inr (Or.inr (Or.inr (Or.inl rfl))))) i j k
  split
  · exact hfun _ (Or.inl rfl) i j k
  split
  · exact hfun _ (Or.inl rfl) i j k
  split
  · exact hfun _ (Or.inr (Or.inr (Or.inr (Or.inr (Or.inr (Or.inl rfl)))))) i j k
  split
  · exact hfun _ (Or.inr (Or.inr (Or.inr (Or.inr (Or.inr (Or.inl rfl)))))) i j k
  split
  · exact hfun _ (Or.inr (Or.inr (Or.inr (Or.inr (Or.inr (Or.inr rfl)))))) i j k
  split
  · exact hfun _ (Or.inr (Or.inr (Or.inr (Or.inr (Or.inr (Or.inr rfl)))))) i j k
  · exact hfun _ (Or.inl rfl) i j k

/-- C7: for every Laue group dispatch and every symmetrization whose input
weights (when supplied) are pointwise nonnegative, at every voxel the
symmetrized weight is `≥ 0`; where it is positive, result · weight equals
the symmetrized signal; where it is zero, the result is zero. -/
theorem symmetrize_weight_spec (s : Shape3) (g : String) (signal : Arr3)
    (wts : Option Arr3)
    (hw : ∀ w, wts = some w → ∀ i j k, 0 ≤ w i j k) (i j k : ℕ) :
    0 ≤ symmWeights s g signal wts i j k ∧
    (0 < symmWeights s g signal wts i j k →
      symmetrize s g signal wts i j k * symmWeights s g signal wts i j k =
        symmSignal s g signal i j k) ∧
    (symmWeights s g signal wts i j k = 0 →
      symmetrize s g signal wts i j k = 0) := by
  have hbase : ∀ i j k, 0 ≤ (wts.getD (defaultWeights signal)) i j k := by
    cases wts with
    | none =>
        intro i j k
        simp only [Option.getD_none, defaultWeights]
        split <;> norm_num
    | some w =>
        simpa only [Option.getD_some] using hw w rfl
  have hW : ∀ i j k, 0 ≤ symmWeights s g signal wts i j k :=
    laueFunction_nonneg s g _ hbase
  refine ⟨hW i j k, ?_, ?_⟩
  · intro hpos
    unfold symmetrize
    rw [if_pos hpos]
    exact div_mul_cancel₀ _ (ne_of_gt hpos)
  · intro h0
    unfold symmetrize
    rw [if_neg]
    rw [h0]
    exact lt_irrefl 0

/-- Witness for `symmetrize_weight_spec`: the no-weights path on a constant
signal of `1`, Laue group `-1`, shape `(2,2,2)`, voxel `(0,0,0)`. -/
theorem symmetrize_weight_spec_witness :
    0 ≤ symmWeights ⟨2, 2, 2⟩ "-1" (fun _ _ _ => (1 : ℚ)) none 0 0 0 ∧
    (0 < symmWeights ⟨2, 2, 2⟩ "-1" (fun _ _ _ => (1 : ℚ)) none 0 0 0 →
      symmetrize ⟨2, 2, 2⟩ "-1" (fun _ _ _ => (1 : ℚ)) none 0 0 0 *
          symmWeights ⟨2, 2, 2⟩ "-1" (fun _ _ _ => (1 : ℚ)) none 0 0 0 =
        symmSignal ⟨2, 2, 2⟩ "-1" (fun _ _ _ => (1 : ℚ)) 0 0 0) ∧
    (symmWeights ⟨2, 2, 2⟩ "-1" (fun _ _ _ => (1 : ℚ)) none 0 0 0 = 0 →
      symmetrize ⟨2, 2, 2⟩ "-1" (fun _ _ _ => (1 : ℚ)) none 0 0 0 = 0) :=
  symmetrize_weight_spec ⟨2, 2, 2⟩ "-1" (fun _ _ _ => (1 : ℚ)) none
    (fun _ h => nomatch h) 0 0 0

set_option maxHeartbeats 2000000 in
theorem orthorhombic_singleVoxel (n₀ n₁ n₂ : ℕ) (c : ℚ)
    (h₀ : 2 ≤ n₀) (h₁ : 2 ≤ n₁) (h₂ : 2 ≤ n₂)
    {i j k : ℕ} (hi : i < n₀) (hj : j < n₁) (hk : k < n₂) :
    orthorhombic ⟨n₀, n₁, n₂⟩ (singleVoxel c) i j k =
      if (i = 0 ∨ i = n₀ - 1) ∧ (j = 0 ∨ j = n₁ - 1) ∧ (k = 0 ∨ k = n₂ - 1)
      then c else 0 := by
  simp only [orthorhombic, flip0, flip1, flip2, Arr3.add_apply, singleVoxel]
  split_ifs <;> first | (exfalso; omega) | norm_num

/-- C8: symmetrizing a volume whose only non-zero voxel is a positive `a`
at `(0,0,0)` under Laue group `mmm` (all dimensions `≥ 2`) gives `a` at
each of the 8 corner voxels and `0` at every other voxel. -/
theorem symmetrize_mmm_single_voxel (n₀ n₁ n₂ : ℕ) (a : ℚ)
    (h₀ : 2 ≤ n₀) (h₁ : 2 ≤ n₁) (h₂ : 2 ≤ n₂) (ha : 0 < a)
    {i j k : ℕ} (hi : i < n₀) (hj : j < n₁) (hk : k < n₂) :
    symmetrize ⟨n₀, n₁, n₂⟩ "mmm" (singleVoxel a) none i j k =
      if (i = 0 ∨ i = n₀ - 1) ∧ (j = 0 ∨ j = n₁ - 1) ∧ (k = 0 ∨ k = n₂ - 1)
      then a else 0 := by
  have hdisp : laueFunction ⟨n₀, n₁, n₂⟩ "mmm" = orthorhombic ⟨n₀, n₁, n₂⟩ :=
    rfl
  have hwts : defaultWeights (singleVoxel a) = singleVoxel 1 := by
    funext u v w
    simp only [defaultWeights, singleVoxel]
    by_cases h : u = 0 ∧ v = 0 ∧ w = 0
    · simp [h, ha]
    · simp [h]
  have hW : symmWeights ⟨n₀, n₁, n₂⟩ "mmm" (singleVoxel a) none i j k =
      if (i = 0 ∨ i = n₀ - 1) ∧ (j = 0 ∨ j = n₁ - 1) ∧ (k = 0 ∨ k = n₂ - 1)
      then 1 else 0 := by
    unfold symmWeights
    rw [Option.getD_none, hwts, hdisp]
    exact orthorhombic_singleVoxel n₀ n₁ n₂ 1 h₀ h₁ h₂ hi hj hk
  have hS : symmSignal ⟨n₀, n₁, n₂⟩ "mmm" (singleVoxel a) i j k =
      if (i = 0 ∨ i = n₀ - 1) ∧ (j = 0 ∨ j = n₁ - 1) ∧ (k = 0 ∨ k = n₂ - 1)
      then a else 0 := by
    unfold symmSignal
    rw [hdisp]
    exact orthorhombic_singleVoxel n₀ n₁ n₂ a h₀ h₁ h₂ hi hj hk
  unfold symmetrize
  rw [hW, hS]
  by_cases hc : (i = 0 ∨ i = n₀ - 1) ∧ (j = 0 ∨ j = n₁ - 1) ∧
      (k = 0 ∨ k = n₂ - 1)
  · simp [hc]
  · simp [hc]

/-- Witness for `symmetrize_mmm_single_voxel` on a `2×2×2` volume with the
single voxel value `1`, evaluated at the corner `(1,1,1)`. -/
theorem symmetrize_mmm_single_voxel_witness :
    symmetrize ⟨2, 2, 2⟩ "mmm" (singleVoxel 1) none 1 1 1 =
      if (1 = 0 ∨ 1 = 2 - 1) ∧ (1 = 0 ∨ 1 = 2 - 1) ∧ (1 = 0 ∨ 1 = 2 - 1)
      then (1 : ℚ) else 0 :=
  symmetrize_mmm_single_voxel 2 2 2 1 (by norm_num) (by norm_num)
    (by norm_num) (by norm_num) (by norm_num) (by norm_num) (by norm_num)

/-- C1 (divergence witness): running the masked combine
(`task = 'nxmasked_combine'`) into a failing `cctw` call marks the
database task `nxcombine` as FAILED — the literal passed to `record_fail`
— while `nxmasked_combine` is left IN_PROGRESS and no process record is
written. -/
theorem nxcombine_masked_failure_wrong_task :
    (nxcombine true true true true true 1
        ⟨fun _ => Status.queued, []⟩).dbStatus "nxmasked_combine" =
      Status.inProgress ∧
    (nxcombine true true true true true 1
        ⟨fun _ => Status.queued, []⟩).dbStatus "nxcombine" = Status.failed ∧
    (nxcombine true true true true true 1
        ⟨fun _ => Status.queued, []⟩).records = [] := by
  refine ⟨rfl, rfl, rfl⟩

/-- Cancellation at any chunk boundary makes the `find_maximum` frame loop
return `None`. -/
theorem findMaximumGo_stopped (stopped : ℕ → Bool) (fm : ℕ → ℚ)
    (s₀ c : ℕ) :
    ∀ (starts : List ℕ) (m : ℚ) (acc : List (ℕ × ℕ)),
      (∃ i ∈ starts, stopped i = true) →
      (findMaximumGo stopped fm s₀ c starts m acc).result = none := by
  intro starts
  induction starts with
  | nil =>
      intro m acc h
      rcases h with ⟨i, hi, _⟩
      simp at hi
  | cons i rest ih =>
      intro m acc h
      by_cases hs : stopped i = true
      · simp [findMaximumGo, hs]
      · rcases h with ⟨j, hj, hjs⟩
        rcases List.mem_cons.mp hj with rfl | hj
        · exact absurd hjs hs
        · simp only [findMaximumGo, Bool.not_eq_true] at *
          rw [hs]
          simpa using ih _ _ ⟨j, hj, hjs⟩

/-- Cancellation at any chunk boundary makes the `find_peaks` chunk loop
return `None`. -/
theorem findPeaksChunkLoop_stopped (stopped : ℕ → Bool)
    (blobs : ℕ → List NXBlob) (s₀ c zmin zmax : ℕ) :
    ∀ (starts : List ℕ) (acc : List NXBlob) (reads : List (ℕ × ℕ)),
      (∃ i ∈ starts, stopped i = true) →
      (findPeaksChunkLoop stopped blobs s₀ c zmin zmax starts acc reads).1 =
        none := by
  intro starts
  induction starts with
  | nil =>
      intro acc reads h
      rcases h with ⟨i, hi, _⟩
      simp at hi
  | cons i rest ih =>
      intro acc reads h
      by_cases hs : stopped i = true
      · simp [findPeaksChunkLoop, hs]
      · rcases h with ⟨j, hj, hjs⟩
        rcases List.mem_cons.mp hj with rfl | hj
        · exact absurd hjs hs
        · simp only [findPeaksChunkLoop, Bool.not_eq_true] at *
          rw [hs]
          by_cases hc : zmin < i + c ∧ i < zmax
          · simpa [hc] using ih _ _ ⟨j, hj, hjs⟩
          · simpa [hc] using ih _ _ ⟨j, hj, hjs⟩

/-- C2 (amended): the `stopped` flag is polled at every chunk boundary of
both frame loops and cancellation makes `find_maximum`/`find_peaks`
return `None`; the find stage then records failure and writes no process
record, but the max stage in non-GUI mode writes its process record and
records completion regardless of the returned value. -/
theorem stopped_cancellation_spec :
    (∀ (d : FrameData) (first last : Option ℕ) (stopped : ℕ → Bool),
      (∃ i ∈ rangeStep (first.getD 0) (last.getD d.shape0)
          (if d.chunks0 < 20 then 50 else d.chunks0), stopped i = true) →
      (findMaximum d first last stopped).result = none) ∧
    (∀ (d : FindData) (t : Option ℚ) (m : ℚ) (first last : Option ℕ)
        (stopped stopped₂ : ℕ → Bool),
      (∃ i ∈ rangeStep 0 (last.getD d.shape0) d.chunks0, stopped i = true) →
      (findPeaks d t m first last stopped stopped₂).result = none) ∧
    (∀ (d : FindData) (t : Option ℚ) (m : ℚ) (first last : Option ℕ)
        (stopped stopped₂ : ℕ → Bool) (s : TaskState),
      (findPeaks d t m first last stopped stopped₂).result = none →
      (nxfind false true true true d t m first last stopped stopped₂
          s).records = s.records ∧
      (nxfind false true true true d t m first last stopped stopped₂
          s).dbStatus "nxfind" = Status.failed) ∧
    (∀ (d : FrameData) (first last : Option ℕ) (stopped : ℕ → Bool)
        (s : TaskState),
      (nxmax false true true true d first last stopped s).records =
        "nxmax" :: s.records.filter (fun u => u ≠ "nxmax") ∧
      (nxmax false true true true d first last stopped s).dbStatus "nxmax" =
        Status.done) := by
  refine ⟨?_, ?_, ?_, ?_⟩
  · intro d first last stopped h
    unfold findMaximum
    exact findMaximumGo_stopped stopped d.frameMax d.shape0 _ _ 0 [] h
  · intro d t m first last stopped stopped₂ h
    have h₁ := findPeaksChunkLoop_stopped stopped
      (d.blobsAt (t.getD (m / 10))) d.shape0 d.chunks0 (first.getD 0)
      (last.getD d.shape0) (rangeStep 0 (last.getD d.shape0) d.chunks0)
      [] [] h
    simp only [findPeaks]
    rcases hp : findPeaksChunkLoop stopped (d.blobsAt (t.getD (m / 10)))
        d.shape0 d.chunks0 (first.getD 0) (last.getD d.shape0)
        (rangeStep 0 (last.getD d.shape0) d.chunks0) [] [] with ⟨r, reads⟩
    rw [hp] at h₁
    simp only at h₁
    subst h₁
    rfl
  · intro d t m first last stopped stopped₂ s hnone
    constructor
    · simp [nxfind, hnone, record_fail, record_start, setStatus]
    · simp [nxfind, hnone, record_fail, record_start, setStatus]
  · intro d first last stopped s
    constructor
    · simp [nxmax, record_end, recordProcess, record_start, setStatus]
    · simp [nxmax, record_end, recordProcess, record_start, setStatus]

/-- Witness for `stopped_cancellation_spec` with the flag always set:
both loops return `None`, the find stage fails without records, the max
stage records completion anyway. -/
theorem stopped_cancellation_spec_witness :
    (findMaximum ⟨100, 50, fun _ => 0⟩ none none (fun _ => true)).result =
      none ∧
    (findPeaks ⟨100, 50, fun _ _ => []⟩ (some 1) 0 none none (fun _ => true)
      (fun _ => false)).result = none ∧
    ((nxfind false true true true ⟨100, 50, fun _ _ => []⟩ (some 1) 0 none
        none (fun _ => true) (fun _ => false)
        ⟨fun _ => Status.queued, []⟩).records = [] ∧
      (nxfind false true true true ⟨100, 50, fun _ _ => []⟩ (some 1) 0 none
        none (fun _ => true) (fun _ => false)
        ⟨fun _ => Status.queued, []⟩).dbStatus "nxfind" = Status.failed) ∧
    ((nxmax false true true true ⟨100, 50, fun _ => 0⟩ none none
        (fun _ => true) ⟨fun _ => Status.queued, []⟩).records = ["nxmax"] ∧
      (nxmax false true true true ⟨100, 50, fun _ => 0⟩ none none
        (fun _ => true) ⟨fun _ => Status.queued, []⟩).dbStatus "nxmax" =
        Status.done) :=
  ⟨stopped_cancellation_spec.1 ⟨100, 50, fun _ => 0⟩ none none (fun _ => true)
      ⟨0, by decide, rfl⟩,
    stopped_cancellation_spec.2.1 ⟨100, 50, fun _ _ => []⟩ (some 1) 0 none
      none (fun _ => true) (fun _ => false) ⟨0, by decide, rfl⟩,
    stopped_cancellation_spec.2.2.1 ⟨100, 50, fun _ _ => []⟩ (some 1) 0 none
      none (fun _ => true) (fun _ => false) ⟨fun _ => Status.queued, []⟩
      (stopped_cancellation_spec.2.1 ⟨100, 50, fun _ _ => []⟩ (some 1) 0 none
        none (fun _ => true) (fun _ => false) ⟨0, by decide, rfl⟩),
    stopped_cancellation_spec.2.2.2 ⟨100, 50, fun _ => 0⟩ none none
      (fun _ => true) ⟨fun _ => Status.queued, []⟩⟩

/-- C2 (counterexample): with cancellation observed at the very first
chunk boundary, `find_maximum` returns `None`, yet the non-GUI `nxmax`
stage still writes its process record into the entry. -/
theorem nxmax_cancelled_still_records :
    (findMaximum ⟨100, 50, fun _ => 0⟩ none none (fun _ => true)).result =
      none ∧
    "nxmax" ∈ (nxmax false true true true ⟨100, 50, fun _ => 0⟩ none none
      (fun _ => true) ⟨fun _ => Status.queued, []⟩).records := by
  constructor
  · rfl
  · decide

/-- A chunk loop in which no chunk satisfies the read condition leaves the
accumulated peak list unchanged (unless cancelled). -/
theorem findPeaksChunkLoop_no_read (stopped : ℕ → Bool)
    (blobs : ℕ → List NXBlob) (s₀ c zmin zmax : ℕ) :
    ∀ (starts : List ℕ) (acc : List NXBlob) (reads : List (ℕ × ℕ)),
      (∀ i ∈ starts, ¬(zmin < i + c ∧ i < zmax)) →
      (findPeaksChunkLoop stopped blobs s₀ c zmin zmax starts acc reads).1 =
          none ∨
      (findPeaksChunkLoop stopped blobs s₀ c zmin zmax starts acc reads).1 =
          some acc := by
  intro starts
  induction starts with
  | nil => intro acc reads _; right; rfl
  | cons i rest ih =>
      intro acc reads h
      have hc : ¬(zmin < i + c ∧ i < zmax) := h i (List.mem_cons_self i rest)
      by_cases hs : stopped i = true
      · left
        simp [findPeaksChunkLoop, hs]
      · have h' : ∀ j ∈ rest, ¬(zmin < j + c ∧ j < zmax) :=
          fun j hj => h j (List.mem_cons_of_mem i hj)
        simp only [findPeaksChunkLoop, Bool.not_eq_true] at *
        rw [hs]
        simpa [hc] using ih acc reads h'

/-- Every element of `range(0, stop, step)` with `step ∣ stop` is a chunk
start whose whole chunk still fits below `stop`. -/
theorem rangeStep_zero_dvd (stop step : ℕ) (hd : step ∣ stop) :
    ∀ i ∈ rangeStep 0 stop step, i + step ≤ stop := by
  intro i hi
  unfold rangeStep at hi
  by_cases h0 : step = 0
  · simp [h0] at hi
  · simp only [h0, if_false, List.mem_map, List.mem_range] at hi
    obtain ⟨t, ht, rfl⟩ := hi
    obtain ⟨m, rfl⟩ := hd
    have hstep : 0 < step := Nat.pos_of_ne_zero h0
    have hle : (step * m - 0 + step - 1) / step = m := by
      have h1 : step * m - 0 + step - 1 = step * m + (step - 1) := by omega
      rw [h1, Nat.mul_add_div hstep, Nat.div_eq_of_lt (by omega)]
      omega
    rw [hle] at ht
    have h2 : t + 1 ≤ m := ht
    calc 0 + t * step + step = (t + 1) * step := by ring
      _ ≤ m * step := Nat.mul_le_mul_right step h2
      _ = step * m := Nat.mul_comm m step

/-- C3 (amended): when `first = last` and the chunk size divides `first`
(in particular `first = last = 0`), the chunk loop reads no frame, so
`find_peaks` returns `None` and the find stage ends with `record_fail`,
not `record_end`; no process record is written. -/
theorem find_first_eq_last_spec (d : FindData) (t : Option ℚ) (m : ℚ)
    (f : ℕ) (stopped stopped₂ : ℕ → Bool) (s : TaskState)
    (hdvd : d.chunks0 ∣ f) :
    (findPeaks d t m (some f) (some f) stopped stopped₂).result = none ∧
    (nxfind false true true true d t m (some f) (some f) stopped stopped₂
        s).dbStatus "nxfind" = Status.failed ∧
    (nxfind false true true true d t m (some f) (some f) stopped stopped₂
        s).records = s.records := by
  have hno : ∀ i ∈ rangeStep 0 f d.chunks0, ¬(f < i + d.chunks0 ∧ i < f) := by
    intro i hi
    have := rangeStep_zero_dvd f d.chunks0 hdvd i hi
    omega
  have hnone : (findPeaks d t m (some f) (some f) stopped stopped₂).result =
      none := by
    have hres := findPeaksChunkLoop_no_read stopped
      (d.blobsAt (t.getD (m / 10))) d.shape0 d.chunks0 f f
      (rangeStep 0 f d.chunks0) [] [] hno
    simp only [findPeaks, Option.getD_some]
    rcases hp : findPeaksChunkLoop stopped (d.blobsAt (t.getD (m / 10)))
        d.shape0 d.chunks0 f f (rangeStep 0 f d.chunks0) [] [] with ⟨r, reads⟩
    rw [hp] at hres
    rcases hres with h | h
    · simp only at h
      subst h
      rfl
    · simp only at h
      subst h
      rfl
  refine ⟨hnone, ?_, ?_⟩
  · simp [nxfind, hnone, record_fail, record_start, setStatus]
  · simp [nxfind, hnone, record_fail, record_start, setStatus]

/-- Witness for `find_first_eq_last_spec` at `first = last = 0` with a
chunk size of 50. -/
theorem find_first_eq_last_spec_witness :
    (findPeaks ⟨100, 50, fun _ _ => []⟩ (some 1) 10 (some 0) (some 0)
      (fun _ => false) (fun _ => false)).result = none ∧
    (nxfind false true true true ⟨100, 50, fun _ _ => []⟩ (some 1) 10
      (some 0) (some 0) (fun _ => false) (fun _ => false)
      ⟨fun _ => Status.queued, []⟩).dbStatus "nxfind" = Status.failed ∧
    (nxfind false true true true ⟨100, 50, fun _ _ => []⟩ (some 1) 10
      (some 0) (some 0) (fun _ => false) (fun _ => false)
      ⟨fun _ => Status.queued, []⟩).records = [] :=
  find_first_eq_last_spec ⟨100, 50, fun _ _ => []⟩ (some 1) 10 0
    (fun _ => false) (fun _ => false) ⟨fun _ => Status.queued, []⟩
    (by decide)

/-- C3 (counterexample): with `first = last = 0` and a detector that finds
a blob on every frame, `find_peaks` still returns `None` and the find
stage records FAILED; the claim's "empty peak list and success" is false. -/
theorem find_first_eq_last_counterexample :
    (findPeaks ⟨100, 50, fun t f => [NXBlob.mk' 6 1 4 4 (f : ℚ) 1 1 0 t 50 10]⟩
      (some 1) 10 (some 0) (some 0) (fun _ => false)
      (fun _ => false)).result = none ∧
    (nxfind false true true true
      ⟨100, 50, fun t f => [NXBlob.mk' 6 1 4 4 (f : ℚ) 1 1 0 t 50 10]⟩
      (some 1) 10 (some 0) (some 0) (fun _ => false) (fun _ => false)
      ⟨fun _ => Status.queued, []⟩).dbStatus "nxfind" = Status.failed := by
  constructor
  · rfl
  · rfl

/-- Every read recorded by the `find_maximum` frame loop requests exactly
the loop's chunk size. -/
theorem findMaximumGo_reads (stopped : ℕ → Bool) (fm : ℕ → ℚ) (s₀ c : ℕ) :
    ∀ (starts : List ℕ) (m : ℚ) (acc : List (ℕ × ℕ)),
      (∀ r ∈ acc, r.2 = c) →
      ∀ r ∈ (findMaximumGo stopped fm s₀ c starts m acc).reads, r.2 = c := by
  intro starts
  induction starts with
  | nil =>
      intro m acc h r hr
      simp only [findMaximumGo, List.mem_reverse] at hr
      exact h r hr
  | cons i rest ih =>
      intro m acc h r hr
      by_cases hs : stopped i = true
      · simp only [findMaximumGo, hs, if_true, List.mem_reverse] at hr
        exact h r hr
      · simp only [findMaximumGo, Bool.not_eq_true] at *
        rw [hs] at hr
        simp only [Bool.false_eq_true, if_false] at hr
        refine ih _ _ ?_ r hr
        intro q hq
        rcases List.mem_cons.mp hq with rfl | hq
        · rfl
        · exact h q hq

/-- Every read recorded by the `find_peaks` chunk loop requests exactly
the native chunk size. -/
theorem findPeaksChunkLoop_reads (stopped : ℕ → Bool)
    (blobs : ℕ → List NXBlob) (s₀ c zmin zmax : ℕ) :
    ∀ (starts : List ℕ) (acc : List NXBlob) (reads : List (ℕ × ℕ)),
      (∀ r ∈ reads, r.2 = c) →
      ∀ r ∈ (findPeaksChunkLoop stopped blobs s₀ c zmin zmax starts acc
        reads).2, r.2 = c := by
  intro starts
  induction starts with
  | nil =>
      intro acc reads h r hr
      simp only [findPeaksChunkLoop, List.mem_reverse] at hr
      exact h r hr
  | cons i rest ih =>
      intro acc reads h r hr
      by_cases hs : stopped i = true
      · simp only [findPeaksChunkLoop, hs, if_true, List.mem_reverse] at hr
        exact h r hr
      · simp only [findPeaksChunkLoop, Bool.not_eq_true] at *
        rw [hs] at hr
        simp only [Bool.false_eq_true, if_false] at hr
        by_cases hc : zmin < i + c ∧ i < zmax
        · rw [if_pos hc] at hr
          refine ih _ _ ?_ r hr
          intro q hq
          rcases List.mem_cons.mp hq with rfl | hq
          · rfl
          · exact h q hq
        · rw [if_neg hc] at hr
          exact ih _ _ h r hr

/-- The reads returned by `find_peaks` are exactly the reads of its chunk
loop (the merge phase performs no reads). -/
theorem findPeaks_reads (d : FindData) (t : Option ℚ) (m : ℚ)
    (first last : Option ℕ) (s₁ s₂ : ℕ → Bool) :
    (findPeaks d t m first last s₁ s₂).reads =
      (findPeaksChunkLoop s₁ (d.blobsAt (t.getD (m / 10))) d.shape0 d.chunks0
        (first.getD 0) (last.getD d.shape0)
        (rangeStep 0 (last.getD d.shape0) d.chunks0) [] []).2 := by
  simp only [findPeaks]
  rcases hp : findPeaksChunkLoop s₁ (d.blobsAt (t.getD (m / 10))) d.shape0
      d.chunks0 (first.getD 0) (last.getD d.shape0)
      (rangeStep 0 (last.getD d.shape0) d.chunks0) [] [] with ⟨r, reads⟩
  cases r with
  | none => rfl
  | some allpeaks =>
      simp only
      split
      · rfl
      · split
        · rfl
        · rfl

/-- C5 (amended): the max stage reads chunks of the native chunk size
with the 50-frame fallback when it is `< 20`; the find stage reads chunks
of the native chunk size unconditionally. -/
theorem chunk_size_spec :
    (∀ (d : FrameData) (first last : Option ℕ) (stopped : ℕ → Bool),
      ∀ r ∈ (findMaximum d first last stopped).reads,
        r.2 = if d.chunks0 < 20 then 50 else d.chunks0) ∧
    (∀ (d : FindData) (t : Option ℚ) (m : ℚ) (first last : Option ℕ)
        (s₁ s₂ : ℕ → Bool),
      ∀ r ∈ (findPeaks d t m first last s₁ s₂).reads, r.2 = d.chunks0) := by
  constructor
  · intro d first last stopped r hr
    unfold findMaximum at hr
    exact findMaximumGo_reads stopped d.frameMax d.shape0 _ _ 0 []
      (fun q hq => by simp at hq) r hr
  · intro d t m first last s₁ s₂ r hr
    rw [findPeaks_reads] at hr
    exact findPeaksChunkLoop_reads s₁ (d.blobsAt (t.getD (m / 10))) d.shape0
      d.chunks0 (first.getD 0) (last.getD d.shape0) _ [] []
      (fun q hq => by simp at hq) r hr

/-- Witness for `chunk_size_spec` on concrete runs: the max stage with
native chunk 50 reads `(0, 50)`; the find stage with native chunk 10
reads `(0, 10)`. -/
theorem chunk_size_spec_witness :
    ((0, 50) ∈ (findMaximum ⟨2, 50, fun _ => 0⟩ none none
        (fun _ => false)).reads ∧
      ((0, 50) : ℕ × ℕ).2 = if (50 : ℕ) < 20 then 50 else 50) ∧
    ((0, 10) ∈ (findPeaks ⟨1, 10, fun _ _ => []⟩ (some 1) 0 none none
        (fun _ => false) (fun _ => false)).reads ∧
      ((0, 10) : ℕ × ℕ).2 = 10) :=
  ⟨⟨by decide,
      chunk_size_spec.1 ⟨2, 50, fun _ => 0⟩ none none (fun _ => false)
        (0, 50) (by decide)⟩,
    ⟨by decide,
      chunk_size_spec.2 ⟨1, 10, fun _ _ => []⟩ (some 1) 0 none none
        (fun _ => false) (fun _ => false) (0, 10) (by decide)⟩⟩

/-- C5 (counterexample): with a native chunk size of 10 (`< 20`), the find
stage reads chunks of 10 frames, not the 50-frame fallback the claim
asserts for both stages. -/
theorem find_chunk_not_defaulted :
    ((findPeaks ⟨30, 10, fun _ _ => []⟩ (some 1) 0 none none
      (fun _ => false) (fun _ => false)).reads.all
        (fun r => r.2 = 50)) = false := by
  decide

/-- C9: the threshold getter yields `None` or a strictly positive value;
a cached value `≤ 0` is discarded; with nothing stored and a known
maximum it yields `maximum / 10` (when positive); and the find stage run
with an unset threshold is the run with threshold `maximum / 10`. -/
theorem threshold_positive_spec :
    (∀ (cached rootReduce peaksAttr : Option ℚ) (parentPresent : Bool)
        (pRR pPA maximum : Option ℚ),
      thresholdProperty cached rootReduce peaksAttr parentPresent pRR pPA
          maximum = none ∨
      ∃ v, thresholdProperty cached rootReduce peaksAttr parentPresent pRR
          pPA maximum = some v ∧ 0 < v) ∧
    (∀ (v : ℚ) (rootReduce peaksAttr : Option ℚ) (parentPresent : Bool)
        (pRR pPA maximum : Option ℚ),
      v ≤ 0 →
      thresholdProperty (some v) rootReduce peaksAttr parentPresent pRR pPA
        maximum = none) ∧
    (∀ m : ℚ, thresholdProperty none none none false none none (some m) =
      if m / 10 ≤ 0 then none else some (m / 10)) ∧
    (∀ (d : FindData) (m : ℚ) (first last : Option ℕ) (s₁ s₂ : ℕ → Bool),
      findPeaks d none m first last s₁ s₂ =
        findPeaks d (some (m / 10)) m first last s₁ s₂) := by
  have final : ∀ v : ℚ,
      (if v ≤ 0 then (none : Option ℚ) else some v) = none ∨
      ∃ w, (if v ≤ 0 then (none : Option ℚ) else some v) = some w ∧ 0 < w := by
    intro v
    by_cases hv : v ≤ 0
    · left
      simp [hv]
    · right
      exact ⟨v, by simp [hv], lt_of_not_le hv⟩
  refine ⟨?_, ?_, ?_, ?_⟩
  · intro cached rootReduce peaksAttr parentPresent pRR pPA maximum
    rcases cached with _ | v
    · rcases rootReduce with _ | v
      · rcases peaksAttr with _ | v
        · cases parentPresent
          · rcases maximum with _ | m
            · left; rfl
            · exact final (m / 10)
          · rcases pRR with _ | v
            · rcases pPA with _ | v
              · rcases maximum with _ | m
                · left; rfl
                · exact final (m / 10)
              · exact final v
            · exact final v
        · exact final v
      · exact final v
    · exact final v
  · intro v rootReduce peaksAttr parentPresent pRR pPA maximum hv
    simp only [thresholdProperty]
    simp [hv]
  · intro m
    rfl
  · intro d m first last s₁ s₂
    rfl

/-- Witness for `threshold_positive_spec`: a stored `-1` is discarded to
`None`; with nothing stored, the maximum `5` gives the threshold `1/2`. -/
theorem threshold_positive_spec_witness :
    thresholdProperty (some (-1)) none none false none none none = none ∧
    thresholdProperty none none none false none none (some 5) =
      if (5 : ℚ) / 10 ≤ 0 then none else some (5 / 10) :=
  ⟨threshold_positive_spec.2.1 (-1) none none false none none none
      (by norm_num),
    threshold_positive_spec.2.2.1 5⟩

/-- Folding the per-entry radius maxima entry by entry equals folding over
the concatenation of all matching masks. -/
theorem foldl_matching_flat (p : NXPeak) :
    ∀ (others : List (List NXPeak)) (init : ℚ),
      others.foldl (fun r ms =>
        (matching p ms).foldl (fun r om => max r om.radius) r) init =
      (others.flatMap (matching p)).foldl
        (fun r om => max r om.radius) init := by
  intro others
  induction others with
  | nil => intro init; rfl
  | cons ms rest ih =>
      intro init
      simp only [List.foldl_cons, List.flatMap_cons, List.foldl_append]
      exact ih _

/-- The accumulating pair of `complete_xyz_mask` computes the maximum
matching radius and the maximum matching count. -/
theorem peakRadiusWidth_eq (p : NXPeak) (others : List (List NXPeak)) :
    peakRadiusWidth p others =
      (maxMatchingRadius p others, maxMatchingCount p others) := by
  have split : ∀ (l : List (List NXPeak)) (a : ℚ) (b : ℕ),
      l.foldl (fun rw ms =>
        let oms := matching p ms
        ((oms.foldl (fun r om => max r om.radius) rw.1),
          max rw.2 oms.length)) (a, b) =
      (l.foldl (fun r ms =>
          (matching p ms).foldl (fun r om => max r om.radius) r) a,
        l.foldl (fun b ms => max b (matching p ms).length) b) := by
    intro l
    induction l with
    | nil => intro a b; rfl
    | cons ms rest ih => intro a b; exact ih _ _
  unfold peakRadiusWidth maxMatchingRadius maxMatchingCount
  rw [split]
  rw [foldl_matching_flat]
  rw [List.foldl_map]

/-- C4 (amended): for a peak with `pixel_count < 0` whose matching masks
in the other entries have positive maximum radius `R` and greatest
single-entry count `C`, the emitted extras are one mask per integer frame
of `[z − w, z + w]` around `z = rint(p.z)` with radius `R + 20` and
`w = ⌊(C + 2) / 2⌋` (floor, not ceiling). -/
theorem complete_xyz_extras_spec (p : NXPeak) (others : List (List NXPeak))
    (hr : 0 < maxMatchingRadius p others) :
    extrasForPeak p others =
      (List.range (2 * ((maxMatchingCount p others + 2) / 2) + 1)).map
        (fun t : ℕ =>
          { x := p.x, y := p.y,
            z := ((rint p.z -
              (((maxMatchingCount p others + 2) / 2 : ℕ) : ℤ) +
                (t : ℤ) : ℤ) : ℚ),
            H := p.H, K := p.K, L := p.L, pixel_count := p.pixel_count,
            radius := maxMatchingRadius p others + 20 }) := by
  unfold extrasForPeak
  rw [peakRadiusWidth_eq]
  have hr' : 0 <
      (maxMatchingRadius p others, maxMatchingCount p others).1 := hr
  rw [if_pos hr']

/-- Witness for `complete_xyz_extras_spec` at a peak with one matching
mask of radius 5: three extras with radius 25 at frames 9, 10, 11. -/
theorem complete_xyz_extras_spec_witness :
    extrasForPeak ⟨3, 4, 10, 1, 2, 3, -1, 0⟩ [[⟨7, 8, 12, 1, 2, 3, 0, 5⟩]] =
      (List.range (2 * ((maxMatchingCount ⟨3, 4, 10, 1, 2, 3, -1, 0⟩
          [[⟨7, 8, 12, 1, 2, 3, 0, 5⟩]] + 2) / 2) + 1)).map
        (fun t : ℕ =>
          { x := (3 : ℚ), y := (4 : ℚ),
            z := ((rint (10 : ℚ) -
              (((maxMatchingCount ⟨3, 4, 10, 1, 2, 3, -1, 0⟩
                [[⟨7, 8, 12, 1, 2, 3, 0, 5⟩]] + 2) / 2 : ℕ) : ℤ) +
                (t : ℤ) : ℤ) : ℚ),
            H := (1 : ℚ), K := (2 : ℚ), L := (3 : ℚ),
            pixel_count := (-1 : ℚ),
            radius := maxMatchingRadius ⟨3, 4, 10, 1, 2, 3, -1, 0⟩
              [[⟨7, 8, 12, 1, 2, 3, 0, 5⟩]] + 20 }) :=
  complete_xyz_extras_spec ⟨3, 4, 10, 1, 2, 3, -1, 0⟩
    [[⟨7, 8, 12, 1, 2, 3, 0, 5⟩]] (by decide)

/-- C4 (counterexample): with one matching mask (`max_count = 1`), the
code emits `3` extras (width `⌊3/2⌋ = 1`) while the claim's ceiling width
predicts `5`. -/
theorem complete_xyz_width_counterexample :
    maxMatchingCount ⟨3, 4, 10, 1, 2, 3, -1, 0⟩
        [[⟨7, 8, 12, 1, 2, 3, 0, 5⟩]] = 1 ∧
    (extrasForPeak ⟨3, 4, 10, 1, 2, 3, -1, 0⟩
        [[⟨7, 8, 12, 1, 2, 3, 0, 5⟩]]).length = 3 ∧
    2 * claimWidth 1 + 1 = 5 ∧
    (extrasForPeak ⟨3, 4, 10, 1, 2, 3, -1, 0⟩
        [[⟨7, 8, 12, 1, 2, 3, 0, 5⟩]]).length ≠ 2 * claimWidth 1 + 1 := by
  refine ⟨by decide, by decide, rfl, by decide⟩

end NXRefine
